import Mathlib

/-!
Formal model of the MBE recipe interpreter (epi-parser.py and the
MBE_with-rate variants).

Python values are modelled as follows: strings as `String` / `List Char`,
floats as `ℚ` (the numerals occurring in recipes are decimal literals),
dictionaries as insertion-ordered association lists, uncaught Python
exceptions as an explicit `Except` error type, and `round(x, 2)` as rounding
to the nearest hundredth.  The regular expressions of the source use
character classes that are disjoint at every boundary, so their backtracking
semantics coincide with the maximal-munch scanners defined here.  All inputs
handled by the program are ASCII, so ASCII versions of `strip`, `lower` and
the `\w`, `\s`, `[a-z]` classes are faithful.
-/

deriving instance DecidableEq for Except

set_option allowUnsafeReducibility true

attribute [semireducible] Rat.mul Rat.inv Rat.add Rat.sub

namespace EpiParser

/-- Kinds of uncaught Python exception the parser code can raise. -/
inductive PyErr where
  | keyError : String → PyErr
  | typeError : PyErr
  | zeroDivisionError : PyErr
  | attributeError : PyErr
  | valueError : PyErr
deriving DecidableEq

/-- ASCII whitespace, for str.strip and the regex class \s. -/
def isWsp (c : Char) : Bool := c == ' ' || c == '\t' || c == '\n' || c == '\r'

/-- Python str.strip (ASCII inputs). -/
def trimChars (cs : List Char) : List Char :=
  ((cs.dropWhile isWsp).reverse.dropWhile isWsp).reverse

/-- Consume a literal pattern at the head; return the remainder on success. -/
def stripLit : List Char → List Char → Option (List Char)
  | [], cs => some cs
  | _ :: _, [] => none
  | p :: ps, c :: cs => if c == p then stripLit ps cs else none

/-- Python str.startswith. -/
def strStarts (cs pat : List Char) : Bool := (stripLit pat cs).isSome

/-- The regex class \w for ASCII input. -/
def isWordChar (c : Char) : Bool := c.isAlphanum || c == '_'

/-- The regex class [\d.]. -/
def isDigitDot (c : Char) : Bool := c.isDigit || c == '.'

/-- Helper of wordRuns: acc holds the current run, reversed. -/
def wordRunsAux : List Char → List Char → List String
  | [], acc => if acc.isEmpty then [] else [String.mk acc.reverse]
  | c :: cs, acc =>
    if isWordChar c then wordRunsAux cs (c :: acc)
    else if acc.isEmpty then wordRunsAux cs []
    else String.mk acc.reverse :: wordRunsAux cs []

/-- re.findall of the pattern \w+ : all maximal word-character runs. -/
def wordRuns (cs : List Char) : List String := wordRunsAux cs []

/-- Numeric value of a digit string. -/
def digitsVal (cs : List Char) : ℕ := cs.foldl (fun n c => 10 * n + (c.toNat - 48)) 0

/-- Split on a single-character separator, like Python str.split(sep). -/
def splitOnChar (sep : Char) : List Char → List (List Char)
  | [] => [[]]
  | c :: cs =>
    let r := splitOnChar sep cs
    if c == sep then [] :: r
    else
      match r with
      | [] => [[c]]
      | h :: t => (c :: h) :: t

/-- Python float(...) restricted to strings over digits and dots, the only
strings the code ever feeds to float: valid when there is at most one dot
and at least one digit. -/
def pyFloat (cs : List Char) : Option ℚ :=
  match splitOnChar '.' cs with
  | [w] => if w.isEmpty || !w.all Char.isDigit then none else some (digitsVal w)
  | [w, f] =>
    if (w.isEmpty && f.isEmpty) || !(w ++ f).all Char.isDigit then none
    else some ((digitsVal w : ℚ) + (digitsVal f : ℚ) / (10 : ℚ) ^ f.length)
  | _ => none

/-- Pattern literals used by the line scanners. -/
def layerLit : List Char := ['l', 'a', 'y', 'e', 'r', '(']

def rateLit : List Char := ['r', 'a', 't', 'e', '(']

def openLit : List Char := ['o', 'p', 'e', 'n', '(']

def defineLit : List Char :=
  ['d', 'e', 'f', 'i', 'n', 'e', 'l', 'a', 'y', 'e', 'r', '(']

def endDefineLit : List Char := ['e', 'n', 'd', 'd', 'e', 'f', 'i', 'n', 'e']

def forLit : List Char := ['f', 'o', 'r', '(']

def nextLit : List Char := ['n', 'e', 'x', 't', '(']

def gaasLit : List Char := ['G', 'a', 'A', 's']

def alasLit : List Char := ['A', 'l', 'A', 's']

def alLit : List Char := ['A', 'l']

def inLit : List Char := ['I', 'n']

/-- re.match of layer\((\w+),([\d.]+)([a-z]+)\)(.*): anchored at the start;
returns (material, value, unit, comment). -/
def matchLayerLine (line : String) : Option (String × String × String × String) :=
  match stripLit layerLit line.toList with
  | none => none
  | some r0 =>
    let mat := r0.takeWhile isWordChar
    if mat.isEmpty then none else
    match r0.drop mat.length with
    | ',' :: r1 =>
      let val := r1.takeWhile isDigitDot
      if val.isEmpty then none else
      let r2 := r1.drop val.length
      let unit := r2.takeWhile Char.isLower
      if unit.isEmpty then none else
      match r2.drop unit.length with
      | ')' :: rest => some (String.mk mat, String.mk val, String.mk unit, String.mk rest)
      | _ => none
    | _ => none

/-- Head match of pre ++ \d+ ++ GaAs (a graded ternary composition pattern). -/
def ternAt (pre cs : List Char) : Option String :=
  match stripLit pre cs with
  | none => none
  | some r =>
    let ds := r.takeWhile Char.isDigit
    if ds.isEmpty then none else
    match stripLit gaasLit (r.drop ds.length) with
    | some _ => some (String.mk (pre ++ ds ++ gaasLit))
    | none => none

/-- Head match of a literal alternative. -/
def litAt (lit cs : List Char) : Option String :=
  match stripLit lit cs with
  | some _ => some (String.mk lit)
  | none => none

/-- One position of re.search((Al\d+GaAs|In\d+GaAs|AlAs|GaAs)): the
alternatives are tried in order. -/
def compAt (cs : List Char) : Option String :=
  (ternAt alLit cs).orElse fun _ =>
  (ternAt inLit cs).orElse fun _ =>
  (litAt alasLit cs).orElse fun _ =>
  litAt gaasLit cs

/-- re.search of the composition pattern of epi-parser.py: leftmost match. -/
def searchComp : List Char → Option String
  | [] => none
  | c :: cs =>
    match compAt (c :: cs) with
    | some m => some m
    | none => searchComp cs

/-- One position of re.search((Al\d+GaAs|In\d+GaAs)), the pattern of the
MBE_with-rate variants. -/
def compAtP0 (cs : List Char) : Option String :=
  (ternAt alLit cs).orElse fun _ => ternAt inLit cs

/-- re.search of the composition pattern of the MBE_with-rate variants. -/
def searchCompP0 : List Char → Option String
  | [] => none
  | c :: cs =>
    match compAtP0 (c :: cs) with
    | some m => some m
    | none => searchCompP0 cs

/-- re.search(rate\(([\d.]+)\)): scan left to right for rate( followed by a
nonempty digits-and-dots run and a closing parenthesis; return the run. -/
def rateSearch : List Char → Option (List Char)
  | [] => none
  | c :: cs =>
    match stripLit rateLit (c :: cs) with
    | some r =>
      let run := r.takeWhile isDigitDot
      if !run.isEmpty && (r.drop run.length).head? == some ')' then some run
      else rateSearch cs
    | none => rateSearch cs

/-- float(re.search(rate\(([\d.]+)\), line).group(1)) with its two failure
modes: .group on None raises AttributeError, float on a malformed run raises
ValueError. -/
def rateExtract (cs : List Char) : Except PyErr ℚ :=
  match rateSearch cs with
  | none => .error .attributeError
  | some run =>
    match pyFloat run with
    | none => .error .valueError
    | some q => .ok q

/-- line.split("(")[1].split(")")[0]: the list index [1] is always in range
because every caller has checked that the line starts with definelayer(. -/
def extractDefName (cs : List Char) : String :=
  String.mk ((splitOnChar ')' ((splitOnChar '(' cs).getD 1 [])).headD [])

/-- One material definition: shutter names and growth rate in nm/h.  The rate
is initialised to None (absent) by parse_lay_file. -/
structure LayDef where
  shutters : List String
  rate : Option ℚ
deriving DecidableEq

/-- The definitions table, as an insertion-ordered association list with the
assignment semantics of a Python dict (keys are unique by construction). -/
abbrev LayDict := List (String × LayDef)

/-- Dict lookup. -/
def dictFind (d : LayDict) (k : String) : Option LayDef :=
  match d with
  | [] => none
  | (k2, v) :: rest => if k2 = k then some v else dictFind rest k

/-- Python dict assignment: replace the entry in place or append at the end. -/
def dictSet : LayDict → String → LayDef → LayDict
  | [], k, v => [(k, v)]
  | (k2, v2) :: rest, k, v =>
    if k2 = k then (k, v) :: rest else (k2, v2) :: dictSet rest k v

/-- In-place mutation of one entry, layers[k][field] = value. -/
def dictModify : LayDict → String → (LayDef → LayDef) → LayDict
  | [], _, _ => []
  | (k2, v2) :: rest, k, f =>
    if k2 = k then (k2, f v2) :: rest else (k2, v2) :: dictModify rest k f

/-- Truthiness of the current-definition variable: None and the empty string
are falsy in Python. -/
def curTruthy : Option String → Bool
  | none => false
  | some s => !(s == "")

/-- State of the parse_lay_file scan: the table and the current definition. -/
abbrev LayState := LayDict × Option String

/-- One line of parse_lay_file. -/
def layStep (st : LayState) (raw : String) : Except PyErr LayState :=
  let line := trimChars raw.toList
  if strStarts line defineLit then
    let id := extractDefName line
    .ok (dictSet st.1 id ⟨[], none⟩, some id)
  else if strStarts line rateLit && curTruthy st.2 then
    match st.2 with
    | some cur =>
      match rateExtract line with
      | .error e => .error e
      | .ok r => .ok (dictModify st.1 cur (fun v => { v with rate := some r }), st.2)
    | none => .ok st
  else if strStarts line openLit && curTruthy st.2 then
    match st.2 with
    | some cur =>
      .ok (dictModify st.1 cur (fun v => { v with shutters := (wordRuns line).drop 1 }), st.2)
    | none => .ok st
  else if strStarts line endDefineLit then .ok (st.1, none)
  else .ok st

/-- The line loop of parse_lay_file. -/
def layRun : List String → LayState → Except PyErr LayState
  | [], st => .ok st
  | l :: ls, st =>
    match layStep st l with
    | .error e => .error e
    | .ok st2 => layRun ls st2

/-- parse_lay_file (minus the file IO): build the definitions table. -/
def parse_lay_file (lines : List String) : Except PyErr LayDict :=
  match layRun lines ([], none) with
  | .error e => .error e
  | .ok st => .ok st.1

/-- The Shutters field of a layer record: the idle branch stores a Python
list, the growth branch stores the comma-joined display string. -/
inductive ShutterVal where
  | strs : List String → ShutterVal
  | txt : String → ShutterVal
deriving DecidableEq

/-- A resolved layer record.  growthRate and repeatCount are optional because
the source dicts carry the corresponding keys only on some branches. -/
structure Layer where
  material : String
  composition : String
  thicknessNm : ℚ
  timeS : ℚ
  shutters : ShutterVal
  growthRate : Option ℚ
  repeatCount : Option ℕ
deriving DecidableEq

/-- Rounding to the nearest integer (half up), written with Rat.floor so
that it computes by kernel reduction. -/
def ratRound (q : ℚ) : ℤ := (q + 1 / 2).floor

/-- Python round(x, 2): round to the nearest hundredth. -/
def round2 (q : ℚ) : ℚ := (ratRound (q * 100) : ℚ) / 100

/-- Unit conversion used in the seconds branch: thickness = rate * t / 3600,
rounded for display. -/
def timeToThickness (rate t : ℚ) : ℚ := round2 (rate * t / 3600)

/-- Unit conversion used in the nanometers branch: time = th * 3600 / rate,
rounded for display. -/
def thicknessToTime (rate th : ℚ) : ℚ := round2 (th * 3600 / rate)

/-- Python ", ".join. -/
def joinComma : List String → String
  | [] => ""
  | [s] => s
  | s :: rest => s ++ ", " ++ joinComma rest

/-- parse_layer_line of epi-parser.py: resolve one growth-script line.  The
undefined-material lookup raises KeyError; an absent rate raises TypeError in
either unit branch; a zero rate raises ZeroDivisionError in the nm branch. -/
def parse_layer_line (line : String) (lay : LayDict) : Except PyErr (Option Layer) :=
  match matchLayerLine line with
  | none => .ok none
  | some (material, valueStr, unit, comment) =>
    let composition := (searchComp comment.toList).getD "Unknown"
    match pyFloat valueStr.toList with
    | none => .error .valueError
    | some value =>
      if material = "shutterzu" then
        .ok (some ⟨"Idle", "None", 0, if unit = "s" then value else 0, .strs [], some 0, none⟩)
      else
        match dictFind lay material with
        | none => .error (.keyError material)
        | some md =>
          let shutters := ShutterVal.txt (joinComma md.shutters)
          if unit = "nm" then
            match md.rate with
            | none => .error .typeError
            | some r =>
              if r = 0 then .error .zeroDivisionError
              else .ok (some ⟨material, composition, round2 value, thicknessToTime r value,
                              shutters, none, some 1⟩)
          else if unit = "s" then
            match md.rate with
            | none => .error .typeError
            | some r =>
              .ok (some ⟨material, composition, timeToThickness r value, round2 value,
                         shutters, none, some 1⟩)
          else .ok none

/-- re.match(for\((\w+),\s*(\d+),\s*([\d.]+)\)): loop variable, iteration
count, step value (the step is captured but never applied). -/
def forMatch (cs : List Char) : Option (String × ℕ × String) :=
  match stripLit forLit cs with
  | none => none
  | some r0 =>
    let var := r0.takeWhile isWordChar
    if var.isEmpty then none else
    match r0.drop var.length with
    | ',' :: r1 =>
      let r1b := r1.dropWhile isWsp
      let its := r1b.takeWhile Char.isDigit
      if its.isEmpty then none else
      match r1b.drop its.length with
      | ',' :: r2 =>
        let r2b := r2.dropWhile isWsp
        let stp := r2b.takeWhile isDigitDot
        if stp.isEmpty then none else
        match r2b.drop stp.length with
        | ')' :: _ => some (String.mk var, digitsVal its, String.mk stp)
        | _ => none
      | _ => none
    | _ => none

/-- An entry of the layer_stack list built by parse_epi_file_with_loops:
either a plain layer dict or a Group dict holding a repeat count and the
single-iteration layers of a for-block. -/
inductive StackItem where
  | layer : Layer → StackItem
  | group : ℕ → List Layer → StackItem
deriving DecidableEq

/-- ASCII str.lower. -/
def lowerChar (c : Char) : Char := if c.isUpper then Char.ofNat (c.toNat + 32) else c

/-- ASCII str.lower on a string. -/
def lowerStr (s : String) : String := String.mk (s.toList.map lowerChar)

/-- The synthetic substrate dict inserted at index 0 (hardcoded thickness 500,
empty composition and shutters strings, Repeat 1, no Growth Rate key). -/
def substrateLayer : Layer := ⟨"Substrate", "", 500, 0, .txt "", none, some 1⟩

/-- The substrate-insertion guard: any(l.get("Material", "").lower() ==
"substrate").  Group dicts have no Material key, so .get returns "" for them
and layers inside for-blocks are never examined. -/
def hasSubstrateTop (items : List StackItem) : Bool :=
  items.any fun it =>
    match it with
    | .layer l => lowerStr l.material == "substrate"
    | .group _ _ => false

/-- The substrate-insertion policy of parse_epi_file_with_loops. -/
def insertSubstrate (items : List StackItem) : List StackItem :=
  if hasSubstrateTop items then items else .layer substrateLayer :: items

/-- State of the parse_epi_file_with_loops scan: the stack built so far and,
when inside a for-block, the repeat count and the block layers so far. -/
abbrev EpiState := List StackItem × Option (ℕ × List Layer)

/-- One line of the parse_epi_file_with_loops scan, as a state machine:
outside a block, dispatch on for( / layer(; inside a block, collect every
line until one starting with next( (a nested for( line is fed to
parse_layer_line, matches nothing and is dropped). -/
def epiStep (lay : LayDict) (st : EpiState) (raw : String) : Except PyErr EpiState :=
  let line := trimChars raw.toList
  match st.2 with
  | some (n, acc) =>
    if strStarts line nextLit then .ok (st.1 ++ [.group n acc], none)
    else
      match parse_layer_line (String.mk line) lay with
      | .error e => .error e
      | .ok p => .ok (st.1, some (n, acc ++ p.toList))
  | none =>
    if strStarts line forLit then
      match forMatch line with
      | some (_, n, _) => .ok (st.1, some (n, []))
      | none => .ok st
    else if strStarts line layerLit then
      match parse_layer_line (String.mk line) lay with
      | .error e => .error e
      | .ok p => .ok (st.1 ++ p.toList.map .layer, none)
    else .ok st

/-- The line loop of parse_epi_file_with_loops. -/
def epiRun (lay : LayDict) : List String → EpiState → Except PyErr EpiState
  | [], st => .ok st
  | l :: ls, st =>
    match epiStep lay st l with
    | .error e => .error e
    | .ok st2 => epiRun lay ls st2

/-- End of input: a block still open is emitted as a Group (the source
appends the group after its capture loop, which also stops at end of file). -/
def epiFinish (st : EpiState) : List StackItem :=
  match st.2 with
  | some (n, acc) => st.1 ++ [.group n acc]
  | none => st.1

/-- parse_epi_file_with_loops (minus the file IO): parse the growth script
and apply the substrate-insertion policy. -/
def parse_epi_file_with_loops (lines : List String) (lay : LayDict) :
    Except PyErr (List StackItem) :=
  match epiRun lay lines ([], none) with
  | .error e => .error e
  | .ok st => .ok (insertSubstrate (epiFinish st))

/-- The layer produced from one nested layer of a Group with repeat n:
thickness and time are multiplied by n and the Repeat key is set to n. -/
def aggLayer (n : ℕ) (l : Layer) : Layer :=
  { l with
    repeatCount := some n
    thicknessNm := l.thicknessNm * (n : ℚ)
    timeS := l.timeS * (n : ℚ) }

/-- flatten_layers: collapse each Group into one aggregated layer per nested
instruction, in order, at the position of the block. -/
def flatten_layers : List StackItem → List Layer
  | [] => []
  | .layer l :: rest => l :: flatten_layers rest
  | .group n ls :: rest => ls.map (aggLayer n) ++ flatten_layers rest

/-- The fields of the table row printed for a layer by print_layer_table,
minus the running index: material, composition, thickness, time, shutters,
and the Repeat key read with l.get("Repeat", 1). -/
def displayRow (l : Layer) : String × String × ℚ × ℚ × ShutterVal × ℕ :=
  (l.material, l.composition, l.thicknessNm, l.timeS, l.shutters, l.repeatCount.getD 1)

/-- One line of parse_epi_file from the MBE_with-rate variants: same layer
grammar, ternary-only composition patterns, an explicit skip of undefined
materials (with a printed warning as the diagnostic), a Growth Rate key on
every produced layer and no Repeat key; the seconds branch is tested first. -/
def p0Step (lay : LayDict) (acc : List Layer) (raw : String) : Except PyErr (List Layer) :=
  let line := trimChars raw.toList
  if strStarts line layerLit then
    match matchLayerLine (String.mk line) with
    | none => .ok acc
    | some (material, valueStr, unit, comment) =>
      let composition := (searchCompP0 comment.toList).getD "Unknown"
      match pyFloat valueStr.toList with
      | none => .error .valueError
      | some value =>
        if material = "shutterzu" then
          .ok (acc ++ [⟨"Idle", "None", 0, if unit = "s" then value else 0, .strs [], some 0, none⟩])
        else
          match dictFind lay material with
          | none => .ok acc
          | some md =>
            let shutters := ShutterVal.txt (joinComma md.shutters)
            if unit = "s" then
              match md.rate with
              | none => .error .typeError
              | some r =>
                .ok (acc ++ [⟨material, composition, timeToThickness r value, round2 value,
                              shutters, some r, none⟩])
            else if unit = "nm" then
              match md.rate with
              | none => .error .typeError
              | some r =>
                if r = 0 then .error .zeroDivisionError
                else .ok (acc ++ [⟨material, composition, round2 value, thicknessToTime r value,
                                   shutters, some r, none⟩])
            else .ok acc
  else .ok acc

/-- The line loop of the MBE_with-rate parse_epi_file. -/
def p0Run (lay : LayDict) : List String → List Layer → Except PyErr (List Layer)
  | [], acc => .ok acc
  | l :: ls, acc =>
    match p0Step lay acc l with
    | .error e => .error e
    | .ok acc2 => p0Run lay ls acc2

/-- parse_epi_file of the MBE_with-rate variants (no loops, no substrate
insertion). -/
def parse_epi_file (lines : List String) (lay : LayDict) : Except PyErr (List Layer) :=
  p0Run lay lines []

/-- The layers produced from a captured for-block body, in order. -/
def blockParse (lines : List String) (lay : LayDict) : Except PyErr (List Layer) :=
  match lines with
  | [] => .ok []
  | l :: ls =>
    match parse_layer_line (String.mk (trimChars l.toList)) lay with
    | .error e => .error e
    | .ok p =>
      match blockParse ls lay with
      | .error e => .error e
      | .ok rest => .ok (p.toList ++ rest)

/-- Whether some line of the source opens a definition block for id. -/
def definesId (lines : List String) (id : String) : Bool :=
  lines.any fun r =>
    strStarts (trimChars r.toList) defineLit &&
    extractDefName (trimChars r.toList) == id

end EpiParser

open EpiParser

/-- C1: on the spec's end-to-end scenario the resolved growth layer has
composition GaAs rather than Unknown: the trailing comment GaAs buffer
matches the GaAs alternative of the composition pattern of epi-parser.py.
This refutes the stated composition while all other stated fields hold. -/
theorem C1_composition_counterexample :
    parse_lay_file ["definelayer(GaAs)", "rate(600)", "open(As,Ga)", "enddefine"]
      = .ok [("GaAs", ⟨["As", "Ga"], some 600⟩)] ∧
    parse_epi_file_with_loops ["layer(GaAs,120s) // GaAs buffer"]
        [("GaAs", ⟨["As", "Ga"], some 600⟩)]
      = .ok [.layer substrateLayer,
             .layer ⟨"GaAs", "GaAs", 20, 120, .txt "As, Ga", none, some 1⟩] ∧
    (Layer.mk "GaAs" "GaAs" 20 120 (.txt "As, Ga") none (some 1)).composition ≠ "Unknown" := by
  refine ⟨by decide, by decide, by decide⟩

/-- C1 amended: the interpreter run on the definitions block
definelayer(GaAs) rate(600) open(As,Ga) enddefine and the program line
layer(GaAs,120s) // GaAs buffer yields exactly one resolved growth layer,
with material GaAs, thickness 20 nm, time 120 s, the shutter sequence
As, Ga (stored comma-joined), and composition GaAs, preceded by the
auto-inserted synthetic substrate. -/
theorem C1_end_to_end_amended :
    parse_lay_file ["definelayer(GaAs)", "rate(600)", "open(As,Ga)", "enddefine"]
      = .ok [("GaAs", ⟨["As", "Ga"], some 600⟩)] ∧
    parse_epi_file_with_loops ["layer(GaAs,120s) // GaAs buffer"]
        [("GaAs", ⟨["As", "Ga"], some 600⟩)]
      = .ok [.layer substrateLayer,
             .layer ⟨"GaAs", "GaAs", 20, 120, .txt "As, Ga", none, some 1⟩] := by
  refine ⟨by decide, by decide⟩

/-- C2: in epi-parser.py a reference to a material absent from the
definitions raises KeyError inside parse_layer_line, aborting the whole
parse with no best-effort stack; the parse_epi_file of the MBE_with-rate
variants instead drops the instruction (after printing a warning) and
returns a stack strictly shorter than the instruction count, which is the
behavior the claim describes. -/
theorem C2_undefined_material_divergence :
    parse_epi_file_with_loops ["layer(XYZ,10s)"] [] = .error (.keyError "XYZ") ∧
    parse_epi_file ["layer(XYZ,10s)"] [] = .ok ([] : List Layer) ∧
    ([] : List Layer).length < ["layer(XYZ,10s)"].length := by
  refine ⟨by decide, by decide, by decide⟩

/-- C3 counterexample: resolving a non-idle instruction whose material has
an absent rate raises TypeError and a zero rate with a nanometer value
raises ZeroDivisionError, both aborting the whole parse instead of being
surfaced as a per-instruction UndefinedRate; and a zero rate with a seconds
value silently produces a zero-thickness layer with no error at all. -/
theorem C3_rate_crash_counterexample :
    parse_lay_file ["definelayer(X)", "enddefine"] = .ok [("X", ⟨[], none⟩)] ∧
    parse_epi_file_with_loops ["layer(X,10s)"] [("X", ⟨[], none⟩)] = .error .typeError ∧
    parse_lay_file ["definelayer(X)", "rate(0)", "enddefine"] = .ok [("X", ⟨[], some 0⟩)] ∧
    parse_epi_file_with_loops ["layer(X,10nm)"] [("X", ⟨[], some 0⟩)]
      = .error .zeroDivisionError ∧
    parse_epi_file_with_loops ["layer(X,10s)"] [("X", ⟨[], some 0⟩)]
      = .ok [.layer substrateLayer,
             .layer ⟨"X", "Unknown", 0, 10, .txt "", none, some 1⟩] := by
  refine ⟨by decide, by decide, by decide, by decide, by decide⟩

/-- C6 counterexample: a repeated block with iteration count 1 around an
idle instruction does not flatten to the same layer record as the
equivalent non-looped instruction: flattening writes the Repeat key (1)
into the copy, while the idle record produced outside a loop has no Repeat
key at all. -/
theorem C6_repeat_one_counterexample :
    parse_epi_file_with_loops ["for(i,1,0.0)", "layer(shutterzu,30s)", "next(i)"] []
      = .ok [.layer substrateLayer, .group 1 [⟨"Idle", "None", 0, 30, .strs [], some 0, none⟩]] ∧
    parse_epi_file_with_loops ["layer(shutterzu,30s)"] []
      = .ok [.layer substrateLayer, .layer ⟨"Idle", "None", 0, 30, .strs [], some 0, none⟩] ∧
    flatten_layers [.layer substrateLayer,
                    .group 1 [⟨"Idle", "None", 0, 30, .strs [], some 0, none⟩]]
      ≠ flatten_layers [.layer substrateLayer,
                        .layer ⟨"Idle", "None", 0, 30, .strs [], some 0, none⟩] := by
  refine ⟨by decide, by decide, by decide⟩

/-- C8 counterexample: a program whose for( line is never closed by a
next( line still parses successfully: the remaining lines are captured as
the block body and a best-effort stack containing the group is returned,
instead of the hard failure the claim requires. -/
theorem C8_unclosed_block_counterexample :
    parse_epi_file_with_loops ["for(i,2,0.0)", "layer(shutterzu,10s)"] []
      = .ok [.layer substrateLayer,
             .group 2 [⟨"Idle", "None", 0, 10, .strs [], some 0, none⟩]] := by
  decide

/-- C9 counterexample: a rate line whose value is not numeric makes
parse_lay_file fail outright (re.search returns None and .group(1) raises
AttributeError), instead of skipping the line and keeping the rate unset. -/
theorem C9_bad_rate_counterexample :
    parse_lay_file ["definelayer(X)", "rate(abc)", "enddefine"]
      = .error .attributeError := by
  decide

/-- C5 counterexample: with rate 1 nm/h and time 1 s, the two-decimal
rounding of the intermediate thickness collapses it to 0, so converting
back yields time 0: the round trip misses the original time by 1, far
beyond two-decimal tolerance. -/
theorem C5_roundtrip_counterexample :
    timeToThickness 1 1 = 0 ∧
    thicknessToTime 1 (timeToThickness 1 1) = 0 ∧
    ¬ (|thicknessToTime 1 (timeToThickness 1 1) - 1| ≤ 1 / 100) := by
  refine ⟨by decide, by decide, by decide⟩

/-- C7: every layer produced by the idle branch of parse_layer_line (a line
whose material token is the idle sentinel shutterzu) has material Idle,
thickness 0, growth rate 0, composition None and an empty shutter list,
with no definitions table lookup involved. -/
theorem C7_idle_invariants (line : String) (lay : LayDict) (v u c : String) (l : Layer)
    (hm : matchLayerLine line = some ("shutterzu", v, u, c))
    (hp : parse_layer_line line lay = .ok (some l)) :
    l.material = "Idle" ∧ l.thicknessNm = 0 ∧ l.growthRate = some 0 ∧
      l.composition = "None" ∧ l.shutters = .strs [] := by
  rw [parse_layer_line, hm] at hp
  cases hpf : pyFloat v.toList with
  | none => simp only [hpf] at hp; exact (Except.noConfusion hp)
  | some q =>
    simp only [hpf, if_pos rfl] at hp
    cases hp
    exact ⟨rfl, rfl, rfl, rfl, rfl⟩

/-- The Boolean substrate guard, phrased as list membership: it sees exactly
the top-level layer entries, never the layers nested in groups. -/
theorem hasSubstrateTop_iff (items : List StackItem) :
    hasSubstrateTop items = true ↔
      ∃ l : Layer, StackItem.layer l ∈ items ∧ lowerStr l.material = "substrate" := by
  unfold hasSubstrateTop
  rw [List.any_eq_true]
  constructor
  · rintro ⟨it, hmem, hit⟩
    cases it with
    | layer l => exact ⟨l, hmem, by simpa using hit⟩
    | group n ls => simp at hit
  · rintro ⟨l, hmem, hl⟩
    exact ⟨.layer l, hmem, by simpa using hl⟩

/-- C4 counterexample: a resolved stack whose only substrate-named layer
sits inside a repeated block still receives the synthetic substrate at
index 0 (the guard reads the Material key of top-level entries only and a
Group dict has none), and the inserted layer's composition is the empty
string, not None. -/
theorem C4_substrate_counterexample :
    parse_lay_file ["definelayer(Substrate)", "rate(600)", "enddefine"]
      = .ok [("Substrate", ⟨[], some 600⟩)] ∧
    parse_epi_file_with_loops ["for(i,2,0.0)", "layer(Substrate,10s)", "next(i)"]
        [("Substrate", ⟨[], some 600⟩)]
      = .ok [.layer substrateLayer,
             .group 2 [⟨"Substrate", "Unknown", 167/100, 10, .txt "", none, some 1⟩]] ∧
    lowerStr (Layer.mk "Substrate" "Unknown" (167/100) 10 (.txt "") none (some 1)).material
      = "substrate" ∧
    substrateLayer.composition ≠ "None" := by
  refine ⟨by decide, by decide, by decide, by decide⟩

/-- C4 amended: the synthetic substrate is prepended iff no top-level layer
entry of the stack has material Substrate case-insensitively (layers inside
repeated blocks are not examined); the inserted layer carries the hardcoded
nominal thickness 500 nm, zero time and the empty composition string; and
the insertion step is idempotent. -/
theorem C4_substrate_policy_amended (items : List StackItem) :
    ((∀ l : Layer, StackItem.layer l ∈ items → lowerStr l.material ≠ "substrate") →
      insertSubstrate items = .layer substrateLayer :: items) ∧
    (∀ l : Layer, StackItem.layer l ∈ items → lowerStr l.material = "substrate" →
      insertSubstrate items = items) ∧
    insertSubstrate (insertSubstrate items) = insertSubstrate items ∧
    substrateLayer.thicknessNm = 500 ∧ substrateLayer.timeS = 0 ∧
    substrateLayer.composition = "" := by
  refine ⟨?_, ?_, ?_, rfl, rfl, rfl⟩
  · intro h
    unfold insertSubstrate
    rw [if_neg]
    intro htrue
    obtain ⟨l, hmem, hl⟩ := (hasSubstrateTop_iff items).mp htrue
    exact h l hmem hl
  · intro l hmem hl
    unfold insertSubstrate
    rw [if_pos ((hasSubstrateTop_iff items).mpr ⟨l, hmem, hl⟩)]
  · by_cases h : hasSubstrateTop items = true
    · unfold insertSubstrate
      rw [if_pos h, if_pos h]
    · have h1 : insertSubstrate items = .layer substrateLayer :: items := by
        unfold insertSubstrate; rw [if_neg h]
      rw [h1]
      unfold insertSubstrate
      rw [if_pos ((hasSubstrateTop_iff _).mpr
        ⟨substrateLayer, List.mem_cons_self _ _, by decide⟩)]

/-- C4 witness: on the empty stack the guard finds no substrate and the
synthetic layer is prepended; on a stack already starting with it, assembly
returns the stack unchanged, and re-running assembly changes nothing. -/
theorem C4_substrate_witness :
    insertSubstrate [] = [.layer substrateLayer] ∧
    insertSubstrate [.layer substrateLayer] = [.layer substrateLayer] ∧
    insertSubstrate (insertSubstrate []) = insertSubstrate [] :=
  ⟨(C4_substrate_policy_amended []).1 (fun l hl => absurd hl (by simp)),
   (C4_substrate_policy_amended [.layer substrateLayer]).2.1 substrateLayer
     (List.mem_cons_self _ _) (by decide),
   (C4_substrate_policy_amended []).2.2.1⟩

/-- Multiplying a time by a zero rate gives thickness zero. -/
theorem timeToThickness_zero (t : ℚ) : timeToThickness 0 t = 0 := by
  unfold timeToThickness
  rw [zero_mul, zero_div]
  decide

/-- C3 amended: for a non-idle growth instruction whose material is defined,
an absent rate makes parse_layer_line fail with TypeError in either unit
branch, a zero rate with a nanometer value makes it fail with
ZeroDivisionError, and a zero rate with a seconds value silently yields a
zero-thickness layer with no error recorded; no UndefinedRate diagnostic
exists and the failures abort the whole parse (no NaN or infinity is ever
produced: the code raises instead). -/
theorem C3_undefined_rate_amended (line : String) (lay : LayDict)
    (m v u c : String) (md : LayDef) (q : ℚ)
    (hm : matchLayerLine line = some (m, v, u, c))
    (hmz : m ≠ "shutterzu")
    (hd : dictFind lay m = some md)
    (hq : pyFloat v.toList = some q) :
    (md.rate = none → u = "s" ∨ u = "nm" → parse_layer_line line lay = .error .typeError) ∧
    (md.rate = some 0 → u = "nm" → parse_layer_line line lay = .error .zeroDivisionError) ∧
    (md.rate = some 0 → u = "s" →
      parse_layer_line line lay
        = .ok (some ⟨m, (searchComp c.toList).getD "Unknown", 0, round2 q,
                     .txt (joinComma md.shutters), none, some 1⟩)) := by
  rw [parse_layer_line, hm]
  simp only [hq, if_neg hmz, hd]
  refine ⟨?_, ?_, ?_⟩
  · rintro hr (hu | hu) <;> subst hu <;> simp [hr]
  · intro hr hu
    subst hu
    simp [hr]
  · intro hr hu
    subst hu
    simp [hr, timeToThickness_zero]

/-- C3 witness: concrete instances of the three behaviors, obtained from
the amended theorem at the lines layer(X,10s) and layer(X,10nm). -/
theorem C3_undefined_rate_witness :
    parse_layer_line "layer(X,10s)" [("X", ⟨[], none⟩)] = .error .typeError ∧
    parse_layer_line "layer(X,10nm)" [("X", ⟨[], some 0⟩)] = .error .zeroDivisionError ∧
    parse_layer_line "layer(X,10s)" [("X", ⟨[], some 0⟩)]
      = .ok (some ⟨"X", (searchComp "".toList).getD "Unknown", 0, round2 10,
                   .txt (joinComma []), none, some 1⟩) :=
  ⟨(C3_undefined_rate_amended "layer(X,10s)" [("X", ⟨[], none⟩)] "X" "10" "s" ""
      ⟨[], none⟩ 10 (by decide) (by decide) (by decide) (by decide)).1 rfl (Or.inl rfl),
   (C3_undefined_rate_amended "layer(X,10nm)" [("X", ⟨[], some 0⟩)] "X" "10" "nm" ""
      ⟨[], some 0⟩ 10 (by decide) (by decide) (by decide) (by decide)).2.1 rfl rfl,
   (C3_undefined_rate_amended "layer(X,10s)" [("X", ⟨[], some 0⟩)] "X" "10" "s" ""
      ⟨[], some 0⟩ 10 (by decide) (by decide) (by decide) (by decide)).2.2 rfl rfl⟩

/-- Rounding to the nearest integer moves a rational by at most one half. -/
theorem abs_ratRound_sub (q : ℚ) : |(ratRound q : ℚ) - q| ≤ 1 / 2 := by
  have hfl : ratRound q = ⌊q + 1 / 2⌋ := by
    unfold ratRound
    rw [Rat.floor_def' (q + 1 / 2), Rat.floor_def]
  rw [hfl, abs_le]
  have h1 := Int.floor_le (q + 1 / 2)
  have h2 := Int.lt_floor_add_one (q + 1 / 2)
  constructor <;> linarith

/-- Rounding to two decimals moves a rational by at most 1/200. -/
theorem abs_round2_sub (q : ℚ) : |round2 q - q| ≤ 1 / 200 := by
  unfold round2
  have h := abs_ratRound_sub (q * 100)
  have heq : (ratRound (q * 100) : ℚ) / 100 - q
      = ((ratRound (q * 100) : ℚ) - q * 100) / 100 := by ring
  rw [heq, abs_div, abs_of_pos (by norm_num : (0 : ℚ) < 100)]
  linarith

/-- C5 amended: the unrounded time-to-thickness-to-time round trip is exact
for every nonzero rate, and with the two-decimal rounding applied at both
steps the recovered time differs from the original by at most 18/rate +
1/200: the 0.005 rounding error of the intermediate thickness is amplified
by 3600/rate, so the two-decimal tolerance claimed only holds for rates
large enough, and fails for example at rate 1 nm/h. -/
theorem C5_roundtrip_amended (rate t : ℚ) (hr : 0 < rate) (ht : 0 < t) :
    (rate * t / 3600) * 3600 / rate = t ∧
    |thicknessToTime rate (timeToThickness rate t) - t| ≤ 18 / rate + 1 / 200 := by
  have hr0 : rate ≠ 0 := ne_of_gt hr
  constructor
  · field_simp
  · have e1 : |timeToThickness rate t - rate * t / 3600| ≤ 1 / 200 :=
      abs_round2_sub (rate * t / 3600)
    have e2 : |thicknessToTime rate (timeToThickness rate t)
        - timeToThickness rate t * 3600 / rate| ≤ 1 / 200 :=
      abs_round2_sub (timeToThickness rate t * 3600 / rate)
    have hzt : timeToThickness rate t * 3600 / rate - t
        = (timeToThickness rate t - rate * t / 3600) * 3600 / rate := by
      field_simp
    have hsplit : thicknessToTime rate (timeToThickness rate t) - t
        = (thicknessToTime rate (timeToThickness rate t)
            - timeToThickness rate t * 3600 / rate)
          + (timeToThickness rate t * 3600 / rate - t) := by ring
    have habs2 : |timeToThickness rate t * 3600 / rate - t| ≤ 18 / rate := by
      rw [hzt, abs_div, abs_mul, abs_of_pos hr,
          abs_of_pos (by norm_num : (0 : ℚ) < 3600)]
      rw [div_le_div_iff₀ (by positivity) hr]
      calc |timeToThickness rate t - rate * t / 3600| * 3600 * rate
          ≤ (1 / 200) * 3600 * rate := by
            have := mul_le_mul_of_nonneg_right
              (mul_le_mul_of_nonneg_right e1 (by norm_num : (0:ℚ) ≤ 3600)) (le_of_lt hr)
            linarith
        _ = 18 * rate := by ring
    calc |thicknessToTime rate (timeToThickness rate t) - t|
        = |(thicknessToTime rate (timeToThickness rate t)
            - timeToThickness rate t * 3600 / rate)
          + (timeToThickness rate t * 3600 / rate - t)| := by rw [← hsplit]
      _ ≤ |thicknessToTime rate (timeToThickness rate t)
            - timeToThickness rate t * 3600 / rate|
          + |timeToThickness rate t * 3600 / rate - t| := abs_add _ _
      _ ≤ 1 / 200 + 18 / rate := by linarith
      _ = 18 / rate + 1 / 200 := by ring

/-- C5 witness: at rate 3600 nm/h and time 120 s both parts of the amended
round-trip statement hold (and the recovered time is in fact exact). -/
theorem C5_roundtrip_witness :
    (0 : ℚ) < 3600 ∧ (0 : ℚ) < 120 ∧
    (((3600 : ℚ) * 120 / 3600) * 3600 / 3600 = 120 ∧
     |thicknessToTime 3600 (timeToThickness 3600 120) - 120| ≤ 18 / 3600 + 1 / 200) :=
  ⟨by norm_num, by norm_num, C5_roundtrip_amended 3600 120 (by norm_num) (by norm_num)⟩

/-- C7 witness: the program line layer(shutterzu,30s), resolved with an
empty definitions table, yields the idle layer with time 30 s and all the
invariant fields. -/
theorem C7_idle_witness :
    matchLayerLine "layer(shutterzu,30s)" = some ("shutterzu", "30", "s", "") ∧
    parse_layer_line "layer(shutterzu,30s)" []
      = .ok (some ⟨"Idle", "None", 0, 30, .strs [], some 0, none⟩) ∧
    ((Layer.mk "Idle" "None" 0 30 (.strs []) (some 0) none).material = "Idle" ∧
     (Layer.mk "Idle" "None" 0 30 (.strs []) (some 0) none).thicknessNm = 0 ∧
     (Layer.mk "Idle" "None" 0 30 (.strs []) (some 0) none).growthRate = some 0 ∧
     (Layer.mk "Idle" "None" 0 30 (.strs []) (some 0) none).composition = "None" ∧
     (Layer.mk "Idle" "None" 0 30 (.strs []) (some 0) none).shutters = .strs []) :=
  ⟨by decide, by decide,
   C7_idle_invariants "layer(shutterzu,30s)" [] "30" "s" ""
     (Layer.mk "Idle" "None" 0 30 (.strs []) (some 0) none) (by decide) (by decide)⟩



/-- flatten_layers distributes over list append. -/
theorem flatten_layers_append (a b : List StackItem) :
    flatten_layers (a ++ b) = flatten_layers a ++ flatten_layers b := by
  induction a with
  | nil => rfl
  | cons it rest ih =>
    cases it with
    | layer l => simp [flatten_layers, ih]
    | group n ls => simp [flatten_layers, ih]

/-- Flattening a list of plain layer entries returns the layers unchanged. -/
theorem flatten_layers_map_layer (ls : List Layer) :
    flatten_layers (ls.map StackItem.layer) = ls := by
  induction ls with
  | nil => rfl
  | cons l rest ih => simp [flatten_layers, ih]

/-- C6 amended: a repeated block with iteration count n flattens, at the
block's position, to exactly one aggregated layer per nested instruction in
the nested order, each with thickness and time scaled by n and the Repeat
field set to n while every other field is kept; and for n = 1, provided
each nested layer's Repeat key reads as 1 (as every parser-produced layer
does), the flattening agrees with the equivalent non-looped instructions on
every displayed field — exact record equality fails only because idle
layers gain an explicit Repeat key. -/
theorem C6_flatten_amended (pre post : List StackItem) (n : ℕ) (ls : List Layer) :
    flatten_layers (pre ++ StackItem.group n ls :: post)
      = flatten_layers pre ++ ls.map (aggLayer n) ++ flatten_layers post ∧
    (∀ l ∈ ls, (aggLayer n l).thicknessNm = l.thicknessNm * (n : ℚ) ∧
               (aggLayer n l).timeS = l.timeS * (n : ℚ) ∧
               (aggLayer n l).repeatCount = some n ∧
               (aggLayer n l).material = l.material ∧
               (aggLayer n l).composition = l.composition ∧
               (aggLayer n l).shutters = l.shutters ∧
               (aggLayer n l).growthRate = l.growthRate) ∧
    ((∀ l ∈ ls, l.repeatCount.getD 1 = 1) →
      (flatten_layers (pre ++ StackItem.group 1 ls :: post)).map displayRow
        = (flatten_layers (pre ++ ls.map StackItem.layer ++ post)).map displayRow) := by
  refine ⟨?_, ?_, ?_⟩
  · rw [flatten_layers_append]
    simp [flatten_layers, List.append_assoc]
  · intro l _
    exact ⟨rfl, rfl, rfl, rfl, rfl, rfl, rfl⟩
  · intro h
    rw [flatten_layers_append, List.append_assoc, flatten_layers_append,
        flatten_layers_append, flatten_layers_map_layer]
    have hmid : flatten_layers [StackItem.group 1 ls] = ls.map (aggLayer 1) := by
      simp [flatten_layers]
    simp only [flatten_layers, List.map_append]
    congr 1
    congr 1
    rw [List.map_map]
    refine List.map_congr_left ?_
    intro l hl
    have hrep := h l hl
    simp [displayRow, aggLayer, hrep]

/-- C6 witness: the aggregation facts instantiated at a five-fold block
around one idle layer, and the displayed-field agreement for the
one-iteration block. -/
theorem C6_flatten_witness :
    flatten_layers ([] ++ StackItem.group 5 [⟨"Idle", "None", 0, 30, .strs [], some 0, none⟩] :: [])
      = flatten_layers [] ++ [Layer.mk "Idle" "None" 0 30 (.strs []) (some 0) none].map (aggLayer 5)
        ++ flatten_layers [] ∧
    (aggLayer 5 ⟨"Idle", "None", 0, 30, .strs [], some 0, none⟩).thicknessNm
      = (Layer.mk "Idle" "None" 0 30 (.strs []) (some 0) none).thicknessNm * (5 : ℚ) ∧
    (aggLayer 5 ⟨"Idle", "None", 0, 30, .strs [], some 0, none⟩).repeatCount = some 5 ∧
    (flatten_layers ([] ++ StackItem.group 1 [⟨"Idle", "None", 0, 30, .strs [], some 0, none⟩] :: [])).map displayRow
      = (flatten_layers ([] ++ [Layer.mk "Idle" "None" 0 30 (.strs []) (some 0) none].map StackItem.layer ++ [])).map displayRow :=
  ⟨(C6_flatten_amended [] [] 5 [⟨"Idle", "None", 0, 30, .strs [], some 0, none⟩]).1,
   ((C6_flatten_amended [] [] 5 [⟨"Idle", "None", 0, 30, .strs [], some 0, none⟩]).2.1
      ⟨"Idle", "None", 0, 30, .strs [], some 0, none⟩ (List.mem_singleton.mpr rfl)).1,
   ((C6_flatten_amended [] [] 5 [⟨"Idle", "None", 0, 30, .strs [], some 0, none⟩]).2.1
      ⟨"Idle", "None", 0, 30, .strs [], some 0, none⟩ (List.mem_singleton.mpr rfl)).2.2.1,
   (C6_flatten_amended [] [] 1 [⟨"Idle", "None", 0, 30, .strs [], some 0, none⟩]).2.2
     (by intro l hl; rw [List.mem_singleton] at hl; subst hl; rfl)⟩

/-- A line accepted by forMatch necessarily starts with for(. -/
theorem strStarts_of_forMatch (cs : List Char) (v : String) (n : ℕ) (stp : String)
    (h : forMatch cs = some (v, n, stp)) : strStarts cs forLit = true := by
  unfold forMatch at h
  cases hsl : stripLit forLit cs with
  | none => rw [hsl] at h; simp at h
  | some r => unfold strStarts; rw [hsl]; rfl

/-- While inside a for-block, lines without a next( prefix accumulate
exactly the layers of blockParse (and any error aborts identically). -/
theorem epiRun_inBlock (lay : LayDict) :
    ∀ (rs : List String) (stack : List StackItem) (n : ℕ) (acc : List Layer),
    (∀ r ∈ rs, strStarts (trimChars r.toList) nextLit = false) →
    epiRun lay rs (stack, some (n, acc))
      = match blockParse rs lay with
        | .error e => .error e
        | .ok bls => .ok (stack, some (n, acc ++ bls)) := by
  intro rs
  induction rs with
  | nil =>
    intro stack n acc h
    simp [epiRun, blockParse]
  | cons r rest ih =>
    intro stack n acc h
    have hr := h r (List.mem_cons_self _ _)
    have htail : ∀ x ∈ rest, strStarts (trimChars x.toList) nextLit = false :=
      fun x hx => h x (List.mem_cons_of_mem _ hx)
    rw [epiRun]
    simp only [epiStep, hr, Bool.false_eq_true, if_false]
    cases hp : parse_layer_line (String.mk (trimChars r.toList)) lay with
    | error e =>
      have hp2 : parse_layer_line (String.mk (trimChars r.data)) lay = .error e := hp
      simp [blockParse, hp2]
    | ok p =>
      have hp2 : parse_layer_line (String.mk (trimChars r.data)) lay = .ok p := hp
      dsimp only
      rw [ih stack n (acc ++ p.toList) htail, blockParse, hp]
      dsimp only
      cases hb : blockParse rest lay with
      | error e => rfl
      | ok bls => simp [List.append_assoc]

/-- C8 amended: a for( line with no matching next( before end of input does
not abort the parse: every remaining line is captured as the block body,
the group is still emitted when input ends, and a best-effort stack (with
the substrate policy applied) is returned. -/
theorem C8_unclosed_block_amended (lay : LayDict) (head : String) (rest : List String)
    (v : String) (n : ℕ) (stp : String) (bls : List Layer)
    (hf : forMatch (trimChars head.toList) = some (v, n, stp))
    (hnext : ∀ r ∈ rest, strStarts (trimChars r.toList) nextLit = false)
    (hb : blockParse rest lay = .ok bls) :
    parse_epi_file_with_loops (head :: rest) lay
      = .ok [.layer substrateLayer, .group n bls] := by
  have hstart := strStarts_of_forMatch _ _ _ _ hf
  unfold parse_epi_file_with_loops
  rw [epiRun]
  simp only [epiStep, hstart, if_true, hf]
  rw [epiRun_inBlock lay rest [] n [] hnext, hb]
  simp [epiFinish, insertSubstrate, hasSubstrateTop]

/-- C8 witness: the unclosed two-iteration block over one idle line parses
to a stack holding that group, via the amended theorem. -/
theorem C8_unclosed_block_witness :
    forMatch (trimChars "for(i,2,0.0)".toList) = some ("i", 2, "0.0") ∧
    (∀ r ∈ ["layer(shutterzu,10s)"], strStarts (trimChars r.toList) nextLit = false) ∧
    blockParse ["layer(shutterzu,10s)"] []
      = .ok [⟨"Idle", "None", 0, 10, .strs [], some 0, none⟩] ∧
    parse_epi_file_with_loops ("for(i,2,0.0)" :: ["layer(shutterzu,10s)"]) []
      = .ok [.layer substrateLayer,
             .group 2 [⟨"Idle", "None", 0, 10, .strs [], some 0, none⟩]] :=
  ⟨by decide,
   by intro r hr; rw [List.mem_singleton] at hr; subst hr; decide,
   by decide,
   C8_unclosed_block_amended [] "for(i,2,0.0)" ["layer(shutterzu,10s)"] "i" 2 "0.0"
     [⟨"Idle", "None", 0, 10, .strs [], some 0, none⟩] (by decide)
     (by intro r hr; rw [List.mem_singleton] at hr; subst hr; decide) (by decide)⟩

/-- layRun splits at an append. -/
theorem layRun_append (a b : List String) (st : LayState) :
    layRun (a ++ b) st
      = match layRun a st with
        | .error e => .error e
        | .ok st2 => layRun b st2 := by
  induction a generalizing st with
  | nil => rfl
  | cons l ls ih =>
    cases h : layStep st l with
    | error e => simp [layRun, h]
    | ok st2 => simp [layRun, h, ih]

/-- A rate( line does not start with definelayer(. -/
theorem not_define_of_rate (cs : List Char) (h : strStarts cs rateLit = true) :
    strStarts cs defineLit = false := by
  cases cs with
  | nil => exact absurd h (by decide)
  | cons c rest =>
    by_cases hc : c = 'r'
    · subst hc
      rfl
    · have hbeq : (c == 'r') = false := beq_eq_false_iff_ne.mpr hc
      simp [strStarts, stripLit, rateLit, hbeq] at h

/-- C9 amended: a rate( line reached while inside a definition block whose
value extraction fails aborts parse_lay_file with that error
(AttributeError when no parenthesised digits-and-dots run follows rate(,
ValueError when the run is not a valid float literal); no table is
returned, nothing after the bad line is parsed and the rate is never just
left unset. -/
theorem C9_bad_rate_amended (pre post : List String) (d : LayDict) (cur bad : String)
    (e : PyErr)
    (hpre : layRun pre ([], none) = .ok (d, some cur))
    (hcur : cur ≠ "")
    (hrate : strStarts (trimChars bad.toList) rateLit = true)
    (hex : rateExtract (trimChars bad.toList) = .error e) :
    parse_lay_file (pre ++ bad :: post) = .error e := by
  have hndef := not_define_of_rate _ hrate
  have hct : curTruthy (some cur) = true := by
    simp [curTruthy, hcur]
  unfold parse_lay_file
  rw [layRun_append, hpre]
  simp only [layRun]
  simp only [layStep, hndef, Bool.false_eq_true, if_false, hrate, hct, Bool.and_self,
    if_true, hex]

/-- C9 witness: the malformed value 1.2.3 passes the numeric-run regex but
fails float conversion, so the whole definitions parse fails with
ValueError, via the amended theorem. -/
theorem C9_bad_rate_witness :
    layRun ["definelayer(X)"] ([], none) = .ok ([("X", ⟨[], none⟩)], some "X") ∧
    "X" ≠ "" ∧
    strStarts (trimChars "rate(1.2.3)".toList) rateLit = true ∧
    rateExtract (trimChars "rate(1.2.3)".toList) = .error .valueError ∧
    parse_lay_file (["definelayer(X)"] ++ "rate(1.2.3)" :: ["enddefine"]) = .error .valueError :=
  ⟨by decide, by decide, by decide, by decide,
   C9_bad_rate_amended ["definelayer(X)"] ["enddefine"] [("X", ⟨[], none⟩)] "X" "rate(1.2.3)"
     .valueError (by decide) (by decide) (by decide) (by decide)⟩

/-- Dict assignment stores the assigned value at its key. -/
theorem dictFind_set_self (d : LayDict) (k : String) (v : LayDef) :
    dictFind (dictSet d k v) k = some v := by
  induction d with
  | nil => simp [dictSet, dictFind]
  | cons p rest ih =>
    obtain ⟨k2, v2⟩ := p
    by_cases h : k2 = k
    · simp [dictSet, dictFind, h]
    · simp [dictSet, dictFind, h, ih]

/-- Dict assignment leaves every other key unchanged. -/
theorem dictFind_set_ne (d : LayDict) (k j : String) (v : LayDef) (h : j ≠ k) :
    dictFind (dictSet d k v) j = dictFind d j := by
  induction d with
  | nil => simp [dictSet, dictFind, Ne.symm h]
  | cons p rest ih =>
    obtain ⟨k2, v2⟩ := p
    by_cases h2 : k2 = k
    · subst h2
      simp [dictSet, dictFind, Ne.symm h]
    · simp [dictSet, dictFind, h2, ih]

/-- In-place entry mutation maps the stored value at its key. -/
theorem dictFind_modify_self (d : LayDict) (k : String) (f : LayDef → LayDef) :
    dictFind (dictModify d k f) k = (dictFind d k).map f := by
  induction d with
  | nil => simp [dictModify, dictFind]
  | cons p rest ih =>
    obtain ⟨k2, v2⟩ := p
    by_cases h : k2 = k
    · subst h
      simp [dictModify, dictFind]
    · simp [dictModify, dictFind, h, ih]

/-- In-place entry mutation leaves every other key unchanged. -/
theorem dictFind_modify_ne (d : LayDict) (k j : String) (f : LayDef → LayDef) (h : j ≠ k) :
    dictFind (dictModify d k f) j = dictFind d j := by
  induction d with
  | nil => simp [dictModify, dictFind]
  | cons p rest ih =>
    obtain ⟨k2, v2⟩ := p
    by_cases h2 : k2 = k
    · subst h2
      simp [dictModify, dictFind, Ne.symm h]
    · simp [dictModify, dictFind, h2, ih]

/-- Two parse_lay_file scans over the same line, from states sharing the
current-definition component and agreeing on what one key id maps to,
either fail with the same error or step to states that again share the
current component and agree at id: branch selection and error behavior
depend only on the line and the current component, and every table update
either rewrites id identically on both sides or leaves id alone. -/
theorem layStep_sync (id : String) (d d' : LayDict) (cur : Option String) (raw : String)
    (hfind : dictFind d id = dictFind d' id) :
    (∃ e, layStep (d, cur) raw = .error e ∧ layStep (d', cur) raw = .error e) ∨
    (∃ d2 d2' c2, layStep (d, cur) raw = .ok (d2, c2) ∧ layStep (d', cur) raw = .ok (d2', c2) ∧
      dictFind d2 id = dictFind d2' id) := by
  by_cases h1 : strStarts (trimChars raw.toList) defineLit = true
  · right
    refine ⟨dictSet d (extractDefName (trimChars raw.toList)) ⟨[], none⟩,
            dictSet d' (extractDefName (trimChars raw.toList)) ⟨[], none⟩,
            some (extractDefName (trimChars raw.toList)),
            by simp only [layStep, h1, if_true],
            by simp only [layStep, h1, if_true], ?_⟩
    by_cases hn : extractDefName (trimChars raw.toList) = id
    · rw [hn, dictFind_set_self, dictFind_set_self]
    · rw [dictFind_set_ne _ _ _ _ (fun he => hn he.symm),
          dictFind_set_ne _ _ _ _ (fun he => hn he.symm)]
      exact hfind
  · have h1f : strStarts (trimChars raw.toList) defineLit = false :=
      Bool.eq_false_iff.mpr h1
    by_cases h2 : (strStarts (trimChars raw.toList) rateLit && curTruthy cur) = true
    · have h2' := h2
      rw [Bool.and_eq_true] at h2'
      obtain ⟨hr, hc⟩ := h2'
      cases cur with
      | none => simp [curTruthy] at hc
      | some c =>
        cases hex : rateExtract (trimChars raw.toList) with
        | error e =>
          left
          exact ⟨e,
            by simp only [layStep, h1f, Bool.false_eq_true, if_false, h2, if_true, hex],
            by simp only [layStep, h1f, Bool.false_eq_true, if_false, h2, if_true, hex]⟩
        | ok r =>
          right
          refine ⟨dictModify d c (fun v => { v with rate := some r }),
                  dictModify d' c (fun v => { v with rate := some r }),
                  some c,
                  by simp only [layStep, h1f, Bool.false_eq_true, if_false, h2, if_true, hex],
                  by simp only [layStep, h1f, Bool.false_eq_true, if_false, h2, if_true, hex],
                  ?_⟩
          by_cases hc2 : c = id
          · rw [hc2, dictFind_modify_self, dictFind_modify_self, hfind]
          · rw [dictFind_modify_ne _ _ _ _ (fun he => hc2 he.symm),
                dictFind_modify_ne _ _ _ _ (fun he => hc2 he.symm)]
            exact hfind
    · have h2f : (strStarts (trimChars raw.toList) rateLit && curTruthy cur) = false :=
        Bool.eq_false_iff.mpr h2
      by_cases h3 : (strStarts (trimChars raw.toList) openLit && curTruthy cur) = true
      · have h3' := h3
        rw [Bool.and_eq_true] at h3'
        obtain ⟨ho, hc⟩ := h3'
        cases cur with
        | none => simp [curTruthy] at hc
        | some c =>
          right
          refine ⟨dictModify d c (fun v => { v with shutters := (wordRuns (trimChars raw.toList)).drop 1 }),
                  dictModify d' c (fun v => { v with shutters := (wordRuns (trimChars raw.toList)).drop 1 }),
                  some c,
                  by simp only [layStep, h1f, h2f, Bool.false_eq_true, if_false, h3, if_true],
                  by simp only [layStep, h1f, h2f, Bool.false_eq_true, if_false, h3, if_true],
                  ?_⟩
          by_cases hc2 : c = id
          · rw [hc2, dictFind_modify_self, dictFind_modify_self, hfind]
          · rw [dictFind_modify_ne _ _ _ _ (fun he => hc2 he.symm),
                dictFind_modify_ne _ _ _ _ (fun he => hc2 he.symm)]
            exact hfind
      · have h3f : (strStarts (trimChars raw.toList) openLit && curTruthy cur) = false :=
          Bool.eq_false_iff.mpr h3
        by_cases h4 : strStarts (trimChars raw.toList) endDefineLit = true
        · right
          exact ⟨d, d', none,
            by simp only [layStep, h1f, h2f, h3f, Bool.false_eq_true, if_false, h4, if_true],
            by simp only [layStep, h1f, h2f, h3f, Bool.false_eq_true, if_false, h4, if_true],
            hfind⟩
        · have h4f : strStarts (trimChars raw.toList) endDefineLit = false :=
            Bool.eq_false_iff.mpr h4
          right
          exact ⟨d, d', cur,
            by simp only [layStep, h1f, h2f, h3f, h4f, Bool.false_eq_true, if_false],
            by simp only [layStep, h1f, h2f, h3f, h4f, Bool.false_eq_true, if_false],
            hfind⟩

/-- Run-level version of layStep_sync: over the same lines, from states
sharing the current component and agreeing at id, the two scans fail with
the same error or end agreeing at id. -/
theorem layRun_sync (id : String) :
    ∀ (lines : List String) (d d' : LayDict) (cur : Option String),
    dictFind d id = dictFind d' id →
    (∃ e, layRun lines (d, cur) = .error e ∧ layRun lines (d', cur) = .error e) ∨
    (∃ d2 d2' c2, layRun lines (d, cur) = .ok (d2, c2) ∧ layRun lines (d', cur) = .ok (d2', c2) ∧
      dictFind d2 id = dictFind d2' id) := by
  intro lines
  induction lines with
  | nil =>
    intro d d' cur hfind
    right
    exact ⟨d, d', cur, rfl, rfl, hfind⟩
  | cons l ls ih =>
    intro d d' cur hfind
    rcases layStep_sync id d d' cur l hfind with ⟨e, he, he'⟩ | ⟨d2, d2', c2, hs, hs', hrel⟩
    · left
      exact ⟨e, by simp [layRun, he], by simp [layRun, he']⟩
    · have hl : layRun (l :: ls) (d, cur) = layRun ls (d2, c2) := by simp [layRun, hs]
      have hl' : layRun (l :: ls) (d', cur) = layRun ls (d2', c2) := by simp [layRun, hs']
      rw [hl, hl']
      exact ih d2 d2' c2 hrel

/-- Two parse_lay_file scans over the same line and the same current
component, regardless of their tables, fail with the same error or step to
states that again share the current component. -/
theorem layStep_cursync (d d' : LayDict) (cur : Option String) (raw : String) :
    (∃ e, layStep (d, cur) raw = .error e ∧ layStep (d', cur) raw = .error e) ∨
    (∃ d2 d2' c2, layStep (d, cur) raw = .ok (d2, c2) ∧ layStep (d', cur) raw = .ok (d2', c2)) := by
  by_cases h1 : strStarts (trimChars raw.toList) defineLit = true
  · right
    exact ⟨dictSet d (extractDefName (trimChars raw.toList)) ⟨[], none⟩,
           dictSet d' (extractDefName (trimChars raw.toList)) ⟨[], none⟩,
           some (extractDefName (trimChars raw.toList)),
           by simp only [layStep, h1, if_true],
           by simp only [layStep, h1, if_true]⟩
  · have h1f : strStarts (trimChars raw.toList) defineLit = false :=
      Bool.eq_false_iff.mpr h1
    by_cases h2 : (strStarts (trimChars raw.toList) rateLit && curTruthy cur) = true
    · have h2' := h2
      rw [Bool.and_eq_true] at h2'
      obtain ⟨hr, hc⟩ := h2'
      cases cur with
      | none => simp [curTruthy] at hc
      | some c =>
        cases hex : rateExtract (trimChars raw.toList) with
        | error e =>
          left
          exact ⟨e,
            by simp only [layStep, h1f, Bool.false_eq_true, if_false, h2, if_true, hex],
            by simp only [layStep, h1f, Bool.false_eq_true, if_false, h2, if_true, hex]⟩
        | ok r =>
          right
          exact ⟨dictModify d c (fun v => { v with rate := some r }),
                 dictModify d' c (fun v => { v with rate := some r }),
                 some c,
                 by simp only [layStep, h1f, Bool.false_eq_true, if_false, h2, if_true, hex],
                 by simp only [layStep, h1f, Bool.false_eq_true, if_false, h2, if_true, hex]⟩
    · have h2f : (strStarts (trimChars raw.toList) rateLit && curTruthy cur) = false :=
        Bool.eq_false_iff.mpr h2
      by_cases h3 : (strStarts (trimChars raw.toList) openLit && curTruthy cur) = true
      · have h3' := h3
        rw [Bool.and_eq_true] at h3'
        obtain ⟨ho, hc⟩ := h3'
        cases cur with
        | none => simp [curTruthy] at hc
        | some c =>
          right
          exact ⟨dictModify d c (fun v => { v with shutters := (wordRuns (trimChars raw.toList)).drop 1 }),
                 dictModify d' c (fun v => { v with shutters := (wordRuns (trimChars raw.toList)).drop 1 }),
                 some c,
                 by simp only [layStep, h1f, h2f, Bool.false_eq_true, if_false, h3, if_true],
                 by simp only [layStep, h1f, h2f, Bool.false_eq_true, if_false, h3, if_true]⟩
      · have h3f : (strStarts (trimChars raw.toList) openLit && curTruthy cur) = false :=
          Bool.eq_false_iff.mpr h3
        by_cases h4 : strStarts (trimChars raw.toList) endDefineLit = true
        · right
          exact ⟨d, d', none,
            by simp only [layStep, h1f, h2f, h3f, Bool.false_eq_true, if_false, h4, if_true],
            by simp only [layStep, h1f, h2f, h3f, Bool.false_eq_true, if_false, h4, if_true]⟩
        · have h4f : strStarts (trimChars raw.toList) endDefineLit = false :=
            Bool.eq_false_iff.mpr h4
          right
          exact ⟨d, d', cur,
            by simp only [layStep, h1f, h2f, h3f, h4f, Bool.false_eq_true, if_false],
            by simp only [layStep, h1f, h2f, h3f, h4f, Bool.false_eq_true, if_false]⟩

/-- Run-level version of layStep_cursync. -/
theorem layRun_cursync :
    ∀ (lines : List String) (d d' : LayDict) (cur : Option String),
    (∃ e, layRun lines (d, cur) = .error e ∧ layRun lines (d', cur) = .error e) ∨
    (∃ d2 d2' c2, layRun lines (d, cur) = .ok (d2, c2) ∧ layRun lines (d', cur) = .ok (d2', c2)) := by
  intro lines
  induction lines with
  | nil =>
    intro d d' cur
    right
    exact ⟨d, d', cur, rfl, rfl⟩
  | cons l ls ih =>
    intro d d' cur
    rcases layStep_cursync d d' cur l with ⟨e, he, he'⟩ | ⟨d2, d2', c2, hs, hs'⟩
    · left
      exact ⟨e, by simp [layRun, he], by simp [layRun, he']⟩
    · have hl : layRun (l :: ls) (d, cur) = layRun ls (d2, c2) := by simp [layRun, hs]
      have hl' : layRun (l :: ls) (d', cur) = layRun ls (d2', c2) := by simp [layRun, hs']
      rw [hl, hl']
      exact ih d2 d2' c2

/-- C10: when a definitions source consists of an earlier closed region b1
and a later region whose line defLine re-opens a definition block for id,
the combined parse and the parse of the later region alone agree on the
entry stored for id: re-opening the block resets the entry to empty before
the later block's rate and shutter lines fill it, so whatever b1 stored for
id is discarded and the later definition wins, with no error. -/
theorem C10_last_definition_wins
    (b1 pre2 : List String) (defLine : String) (rest : List String)
    (d1 : LayDict) (id : String) (t12 t2 : LayDict)
    (h1 : layRun b1 ([], none) = .ok (d1, none))
    (hdef : strStarts (trimChars defLine.toList) defineLit = true)
    (hid : extractDefName (trimChars defLine.toList) = id)
    (h12 : parse_lay_file (b1 ++ (pre2 ++ defLine :: rest)) = .ok t12)
    (h2 : parse_lay_file (pre2 ++ defLine :: rest) = .ok t2) :
    dictFind t12 id = dictFind t2 id := by
  unfold parse_lay_file at h12 h2
  rw [layRun_append, h1] at h12
  dsimp only at h12
  rw [layRun_append] at h12 h2
  rcases layRun_cursync pre2 d1 [] none with ⟨e, he, he'⟩ | ⟨da, db, c, ha, hb⟩
  · rw [he] at h12
    simp at h12
  · rw [ha] at h12
    rw [hb] at h2
    dsimp only at h12 h2
    simp only [layRun] at h12 h2
    have hstep : ∀ dd : LayDict, layStep (dd, c) defLine
        = .ok (dictSet dd id ⟨[], none⟩, some id) := by
      intro dd
      simp only [layStep, hdef, if_true, hid]
    rw [hstep] at h12 h2
    dsimp only at h12 h2
    have hfind0 : dictFind (dictSet da id ⟨[], none⟩) id
        = dictFind (dictSet db id ⟨[], none⟩) id := by
      rw [dictFind_set_self, dictFind_set_self]
    rcases layRun_sync id rest (dictSet da id ⟨[], none⟩) (dictSet db id ⟨[], none⟩)
        (some id) hfind0 with ⟨e, he, he'⟩ | ⟨f1, f2, cc, hr1, hr2, hagree⟩
    · rw [he] at h12
      simp at h12
    · rw [hr1] at h12
      rw [hr2] at h2
      dsimp only at h12 h2
      cases h12
      cases h2
      exact hagree

/-- C10 witness: two complete blocks for the same material M; the combined
table and the table of the later block alone both store the later rate 200
and shutters B, C for M. -/
theorem C10_last_definition_witness :
    layRun ["definelayer(M)", "rate(100)", "open(A)", "enddefine"] ([], none)
      = .ok ([("M", ⟨["A"], some 100⟩)], none) ∧
    strStarts (trimChars "definelayer(M)".toList) defineLit = true ∧
    extractDefName (trimChars "definelayer(M)".toList) = "M" ∧
    parse_lay_file (["definelayer(M)", "rate(100)", "open(A)", "enddefine"]
        ++ ([] ++ "definelayer(M)" :: ["rate(200)", "open(B,C)", "enddefine"]))
      = .ok [("M", ⟨["B", "C"], some 200⟩)] ∧
    parse_lay_file ([] ++ "definelayer(M)" :: ["rate(200)", "open(B,C)", "enddefine"])
      = .ok [("M", ⟨["B", "C"], some 200⟩)] ∧
    dictFind [("M", ⟨["B", "C"], some 200⟩)] "M" = some ⟨["B", "C"], some 200⟩ ∧
    dictFind [("M", ⟨["B", "C"], some 200⟩)] "M" = dictFind [("M", ⟨["B", "C"], some 200⟩)] "M" :=
  ⟨by decide, by decide, by decide, by decide, by decide, by decide,
   C10_last_definition_wins ["definelayer(M)", "rate(100)", "open(A)", "enddefine"] []
     "definelayer(M)" ["rate(200)", "open(B,C)", "enddefine"]
     [("M", ⟨["A"], some 100⟩)] "M" [("M", ⟨["B", "C"], some 200⟩)] [("M", ⟨["B", "C"], some 200⟩)]
     (by decide) (by decide) (by decide) (by decide) (by decide)⟩
